import Mathlib

/-!
Verification development for the network-topology controller slice of the
scheduler-plugins repository.  The definitions below are a shallow embedding
of the Go sources: `pkg/controller/networktopology.go` (controller and the
generated v1beta1 configuration conversions) and the `pkg/util` helpers
(label extraction, ordering, binary-search lookups).  Components of the
repository that are referenced but whose source is not part of the slice
(the weighted `Graph`, the configmap key encoding, the merge-patch helper,
the `Manual`/`Dijkstra` constants) are modelled from the specification and
are marked as such in their doc comments.

Machine integers (Go `int`, `int64`, `int32`) are modelled as `Int`;
timestamps (`metav1.Time`) as nanosecond counts (`Nat`, `0` = the zero
time); `resource.Quantity` as an integer value paired with its format.
-/

/-- Format tag of a `resource.Quantity` (DecimalSI, BinarySI, DecimalExponent). -/
inductive QuantityFormat where
  | DecimalSI
  | BinarySI
  | DecimalExponent
deriving DecidableEq, Repr

/-- Model of `k8s.io/apimachinery/pkg/api/resource.Quantity`: an integer
value together with its format.  `resource.NewQuantity(v, f)` builds one. -/
structure Quantity where
  value : Int
  format : QuantityFormat
deriving DecidableEq, Repr

/-- `resource.NewQuantity` from apimachinery: value plus format. -/
def NewQuantity (v : Int) (f : QuantityFormat) : Quantity := ⟨v, f⟩

/-- `resource.MustParse "0"`: the zero quantity, DecimalSI format. -/
def zeroQuantity : Quantity := ⟨0, QuantityFormat.DecimalSI⟩

/-- `schedv1alpha1.CostInfo`: one per-destination cost record. -/
structure CostInfo where
  destination : String
  bandwidthCapacity : Quantity
  bandwidthAllocated : Quantity
  networkCost : Int
deriving DecidableEq, Repr

/-- `schedv1alpha1.OriginInfo`: an origin together with its cost records. -/
structure OriginInfo where
  origin : String
  costs : List CostInfo
deriving DecidableEq, Repr

/-- `schedv1alpha1.CostList`. -/
abbrev CostList := List OriginInfo

/-- `schedv1alpha1.WeightInfo`: one named cost matrix. -/
structure WeightInfo where
  name : String
  regionCostList : CostList
  zoneCostList : CostList
deriving DecidableEq, Repr

/-- `schedv1alpha1.WeightList`. -/
abbrev WeightList := List WeightInfo

/-- Modelled from the spec: `metav1.Time`, a timestamp; nanoseconds since the
epoch, with `0` standing for the zero ("never set") time. -/
abbrev MetaTime := Nat

/-- `metav1.Time.IsZero`. -/
def MetaTime.IsZero (t : MetaTime) : Bool := t = 0

/-- `time.Time.Sub`: signed nanosecond difference (a `time.Duration`). -/
def MetaTime.Sub (a b : MetaTime) : Int := (a : Int) - (b : Int)

/-- The Go duration `48 * time.Hour`, in nanoseconds. -/
def hours48 : Int := 48 * 3600 * 1000000000

/-- `schedv1alpha1.NetworkTopologySpec`: weight matrices plus the name of the
measurement config map. -/
structure NetworkTopologySpec where
  weights : WeightList
  configmapName : String
deriving DecidableEq, Repr

/-- `schedv1alpha1.NetworkTopologyStatus`: node count plus the time of the
last full weight computation. -/
structure NetworkTopologyStatus where
  nodeCount : Int
  weightCalculationTime : MetaTime
deriving DecidableEq, Repr

/-- `schedv1alpha1.NetworkTopology` custom resource (the fields the
controller reads or writes: creation timestamp, spec, status). -/
structure NetworkTopology where
  creationTimestamp : MetaTime
  spec : NetworkTopologySpec
  status : NetworkTopologyStatus
deriving DecidableEq, Repr

/-- A cluster node: name plus its labels (a Go `map[string]string`; the nil
map behaves as the empty association list). -/
structure Node where
  name : String
  labels : List (String × String)
deriving DecidableEq, Repr

/-- Value of the well-known label key `v1.LabelTopologyRegion`. -/
def labelTopologyRegion : String := "topology.kubernetes.io/region"

/-- Value of the well-known label key `v1.LabelTopologyZone`. -/
def labelTopologyZone : String := "topology.kubernetes.io/zone"

/-- Go map indexing `labels[key]`: the stored value, or `""` when absent. -/
def labelLookup (labels : List (String × String)) (key : String) : String :=
  (labels.lookup key).getD ""

/-- `networkAwareUtil.GetNodeRegion` (pkg/util): the node's region label or
`""` when absent. -/
def GetNodeRegion (n : Node) : String :=
  let zone := labelLookup n.labels labelTopologyRegion
  if zone = "" then "" else zone

/-- `networkAwareUtil.GetNodeZone` (pkg/util): the node's zone label or `""`
when absent. -/
def GetNodeZone (n : Node) : String :=
  let region := labelLookup n.labels labelTopologyZone
  if region = "" then "" else region

/-- A `v1.ConfigMap`: its name and its `data` string-to-string mapping. -/
structure ConfigMap where
  name : String
  data : List (String × String)
deriving DecidableEq, Repr

/-- Digit run of `strconv.Atoi`: all characters must be decimal digits and
there must be at least one. -/
def atoiDigits (cs : List Char) : Option Nat :=
  if cs.isEmpty then none
  else cs.foldl (fun acc c =>
    acc.bind fun a => if c.isDigit then some (a * 10 + (c.toNat - 48)) else none) (some 0)

/-- `strconv.Atoi`: base-10 integer with optional sign; `none` models a
non-nil error (in which case Go also hands back the value `0`). -/
def atoi (s : String) : Option Int :=
  match s.data with
  | [] => none
  | '+' :: rest => (atoiDigits rest).map (fun n => (n : Int))
  | '-' :: rest => (atoiDigits rest).map (fun n => -(n : Int))
  | cs => (atoiDigits cs).map (fun n => (n : Int))

/-- Minimum of a list of integers, `none` when empty. -/
def minIntList : List Int → Option Int
  | [] => none
  | x :: xs =>
    match minIntList xs with
    | none => some x
    | some m => some (min x m)

/-- Modelled from the spec: `util.Graph`, a weighted directed graph over
string identifiers (the pkg/util graph source is not part of the slice).
It is kept as the list of its directed edges with their integer costs. -/
structure Graph where
  edges : List (String × String × Int)
deriving DecidableEq, Repr

/-- Modelled from the spec: `util.NewGraph()`, the empty graph. -/
def Graph.new : Graph := ⟨[]⟩

/-- Modelled from the spec: `Graph.AddEdge(u, v, cost)` inserts or
overwrites the directed edge from `u` to `v`. -/
def Graph.AddEdge (g : Graph) (u v : String) (c : Int) : Graph :=
  ⟨(u, v, c) :: g.edges.filter (fun e => !(e.1 == u && e.2.1 == v))⟩

/-- Weight stored on the directed edge `(u, v)`, if any. -/
def Graph.edgeWeight (g : Graph) (u v : String) : Option Int :=
  (g.edges.find? (fun e => e.1 == u && e.2.1 == v)).map (fun e => e.2.2)

/-- Least cost over simple paths from `u` to `v`, by fuelled exploration
that never revisits a vertex on the current path. -/
def Graph.minCostAux (g : Graph) : Nat → String → String → List String → Option Int
  | 0, _, _, _ => none
  | fuel + 1, u, v, visited =>
    if u = v then some 0
    else
      minIntList (g.edges.filterMap (fun e =>
        if e.1 == u && !(visited.contains e.2.1) then
          (g.minCostAux fuel e.2.1 v (u :: visited)).map (fun c => e.2.2 + c)
        else none))

/-- Modelled from the spec: `Graph.GetPath(u, v)` returns the least-cost
path cost together with a found flag; a missing path yields cost `0` and
`false` (the spec's "cost 0 together with an error signal"). -/
def Graph.GetPath (g : Graph) (u v : String) : Int × Bool :=
  match g.minCostAux (2 * g.edges.length + 2) u v [] with
  | some c => (c, true)
  | none => (0, false)

/-- `util.TopologyKey`: a known region/zone pair. -/
structure TopologyKey where
  Region : String
  Zone : String
deriving DecidableEq, Repr

/-- `util.ZoneKey`: a pair of zones known to share a region. -/
structure ZoneKey where
  Z1 : String
  Z2 : String
deriving DecidableEq, Repr

/-- Insertion into a Go `map[K]bool` used as a set: adding a key that is
already present leaves the map unchanged. -/
def insertKey {α : Type} [DecidableEq α] (a : α) (l : List α) : List α :=
  if a ∈ l then l else a :: l

/-- The mutable state of `NetworkTopologyController` (the fields guarded by
its lock: node count, three graphs, the two membership sets). -/
structure NetworkTopologyController where
  nodeCount : Int
  regionGraph : Graph
  zoneGraph : Graph
  nodeGraph : Graph
  topologyMap : List TopologyKey
  ZoneMap : List ZoneKey
deriving DecidableEq, Repr

/-- Controller state as built by `NewNetworkTopologyController`. -/
def initController : NetworkTopologyController :=
  ⟨0, Graph.new, Graph.new, Graph.new, [], []⟩

/-- Lexicographic strict order on char lists, modelling Go's `<` on strings
(byte-lexicographic; character-wise is equivalent for the ASCII identifiers
this system compares). -/
def charListLt : List Char → List Char → Bool
  | [], [] => false
  | [], _ :: _ => true
  | _ :: _, [] => false
  | a :: as, b :: bs =>
    if a < b then true
    else if b < a then false
    else charListLt as bs

/-- Go's `<` on strings. -/
def strLt (a b : String) : Bool := charListLt a.data b.data

/-- Out-of-range placeholder for list indexing (the Go loops below only ever
index within bounds). -/
def dummyCostInfo : CostInfo := ⟨"", zeroQuantity, zeroQuantity, 0⟩

/-- Loop of `util.FindOriginBandwidthCapacity` (pkg/util): binary search of
`costList` by destination over the index window `[low, high]`, fuelled (the
fuel passed by the wrapper strictly exceeds the window size, so the
exhaustion branch is unreachable). -/
def findOBCLoop (costList : List CostInfo) (destination : String) :
    Nat → Int → Int → Quantity
  | 0, _, _ => zeroQuantity
  | fuel + 1, low, high =>
    if low ≤ high then
      let mid := (low + high) / 2
      let e := costList.getD mid.toNat dummyCostInfo
      if e.destination = destination then e.bandwidthCapacity
      else if strLt e.destination destination then
        findOBCLoop costList destination fuel (mid + 1) high
      else
        findOBCLoop costList destination fuel low (mid - 1)
    else zeroQuantity

/-- `util.FindOriginBandwidthCapacity` (pkg/util): binary search of a
cost list (sorted by destination) for a destination's bandwidth capacity;
`resource.MustParse("0")` when absent. -/
def FindOriginBandwidthCapacity (costList : List CostInfo) (destination : String) : Quantity :=
  findOBCLoop costList destination (costList.length + 1) 0 ((costList.length : Int) - 1)

/-- Loop of `util.FindOriginCosts` (pkg/util): binary search of an origin
list by origin, fuelled like `findOBCLoop`. -/
def findOriginCostsLoop (originList : List OriginInfo) (origin : String) :
    Nat → Int → Int → List CostInfo
  | 0, _, _ => []
  | fuel + 1, low, high =>
    if low ≤ high then
      let mid := (low + high) / 2
      let e := originList.getD mid.toNat ⟨"", []⟩
      if e.origin = origin then e.costs
      else if strLt e.origin origin then
        findOriginCostsLoop originList origin fuel (mid + 1) high
      else
        findOriginCostsLoop originList origin fuel low (mid - 1)
    else []

/-- `util.FindOriginCosts` (pkg/util): binary search of an origin list
(sorted by origin) for an origin's cost list; the empty list when absent. -/
def FindOriginCosts (originList : List OriginInfo) (origin : String) : List CostInfo :=
  findOriginCostsLoop originList origin (originList.length + 1) 0 ((originList.length : Int) - 1)

/-- Insertion step used to model `sort.Sort(networkAwareUtil.ByOrigin ...)`:
insert one record into a list already ascending by origin. -/
def insertByOrigin (x : OriginInfo) : List OriginInfo → List OriginInfo
  | [] => [x]
  | y :: ys => if strLt x.origin y.origin then x :: y :: ys else y :: insertByOrigin x ys

/-- `sort.Sort(networkAwareUtil.ByOrigin costList)`: sort ascending by
origin (`ByOrigin.Less` compares the `Origin` fields; the origins produced
by the controller are pairwise distinct, so Go's unstable sort and this
insertion sort agree). -/
def sortByOrigin (l : List OriginInfo) : List OriginInfo :=
  l.foldr insertByOrigin []

/-- `contains` (pkg/controller): whether a string is present in a slice. -/
def contains : List String → String → Bool
  | [], _ => false
  | v :: rest, str => if v = str then true else contains rest str

/-- Modelled from the spec: `util.GetConfigmapCostQuery` (source not in the
slice), the canonical, deterministic, order-sensitive encoding of an
ordered node-name pair into a config-map data key. -/
def GetConfigmapCostQuery (n1 n2 : String) : String :=
  n1 ++ "_" ++ n2

/-- Modelled from the spec: the `util.Manual` weight-entry name constant. -/
def Manual : String := "Manual"

/-- Modelled from the spec: the `util.Dijkstra` weight-entry name constant. -/
def Dijkstra : String := "Dijkstra"

/-- Cost read for one node pair in `updateGraph`: config-map lookup of the
canonical key (missing key reads as `""`), then `strconv.Atoi`, a parse
failure leaving the zero-initialized cost. -/
def pairCost (cm : ConfigMap) (n1 n2 : Node) : Int :=
  (atoi (labelLookup cm.data (GetConfigmapCostQuery n1.name n2.name))).getD 0

/-- Body of the double loop of `updateGraph` (pkg/controller) for the
ordered node pair `(n1, n2)`: skip identical names; record the node-graph
edge; for differing regions merge into the region graph when the current
region path cost is below the new cost; for equal regions but differing
zones record the zone pair and merge into the zone graph under the same
policy. -/
def processPair (cm : ConfigMap) (ctrl : NetworkTopologyController) (n1 n2 : Node) :
    NetworkTopologyController :=
  if n1.name = n2.name then ctrl
  else
    let r1 := GetNodeRegion n1
    let z1 := GetNodeZone n1
    let r2 := GetNodeRegion n2
    let z2 := GetNodeZone n2
    let cost := pairCost cm n1 n2
    let ctrl := { ctrl with nodeGraph := ctrl.nodeGraph.AddEdge n1.name n2.name cost }
    if r1 ≠ r2 then
      let current := (ctrl.regionGraph.GetPath r1 r2).1
      if current < cost then
        { ctrl with regionGraph := ctrl.regionGraph.AddEdge r1 r2 cost }
      else ctrl
    else if z1 ≠ z2 then
      let ctrl := { ctrl with ZoneMap := insertKey ⟨z1, z2⟩ ctrl.ZoneMap }
      let current := (ctrl.zoneGraph.GetPath z1 z2).1
      if current < cost then
        { ctrl with zoneGraph := ctrl.zoneGraph.AddEdge z1 z2 cost }
      else ctrl
    else ctrl

/-- `updateGraph` (pkg/controller): rebuild the three graphs from empty,
then fold the pairwise loop over every ordered pair of listed nodes.  (The
Go function's error result is always nil.) -/
def updateGraph (ctrl : NetworkTopologyController) (nodes : List Node) (cm : ConfigMap) :
    NetworkTopologyController :=
  let ctrl := { ctrl with regionGraph := Graph.new, zoneGraph := Graph.new, nodeGraph := Graph.new }
  nodes.foldl (fun s n1 => nodes.foldl (fun s n2 => processPair cm s n1 n2) s) ctrl

/-- `getRegionWeights` (pkg/controller): collect the distinct region values
of the listed nodes (including the empty-string default), emit one
`CostInfo` per distinct destination region with the region-graph path cost
and the constant `1*1024` quantities, then sort by origin. -/
def getRegionWeights (ctrl : NetworkTopologyController) (nodes : List Node) : CostList :=
  let regions := nodes.foldl (fun acc n =>
    let r := GetNodeRegion n
    if contains acc r then acc else acc ++ [r]) []
  sortByOrigin (regions.map (fun r1 =>
    { origin := r1
      costs := regions.filterMap (fun r2 =>
        if r1 ≠ r2 then
          some { destination := r2
                 bandwidthCapacity := NewQuantity (1 * 1024) QuantityFormat.DecimalSI
                 bandwidthAllocated := NewQuantity (1 * 1024) QuantityFormat.DecimalSI
                 networkCost := (ctrl.regionGraph.GetPath r1 r2).1 }
        else none) }))

/-- `getZoneWeights` (pkg/controller): like `getRegionWeights` but over the
distinct zone values, restricted to zone pairs recorded in `ZoneMap`, with
the zone-graph path cost. -/
def getZoneWeights (ctrl : NetworkTopologyController) (nodes : List Node) : CostList :=
  let zones := nodes.foldl (fun acc n =>
    let z := GetNodeZone n
    if contains acc z then acc else acc ++ [z]) []
  sortByOrigin (zones.map (fun z1 =>
    { origin := z1
      costs := zones.filterMap (fun z2 =>
        if z1 ≠ z2 then
          if (⟨z1, z2⟩ : ZoneKey) ∈ ctrl.ZoneMap then
            some { destination := z2
                   bandwidthCapacity := NewQuantity (1 * 1024) QuantityFormat.DecimalSI
                   bandwidthAllocated := NewQuantity (1 * 1024) QuantityFormat.DecimalSI
                   networkCost := (ctrl.zoneGraph.GetPath z1 z2).1 }
          else none
        else none) }))

/-- The loop in `syncHandler` that extracts the `Manual` weight entry's two
cost lists (the Go variables start as nil slices; a later `Manual` entry
overwrites an earlier one). -/
def manualCosts (ws : WeightList) : CostList × CostList :=
  ws.foldl (fun acc w =>
    if w.name = Manual then (w.regionCostList, w.zoneCostList) else acc) ([], [])

/-- Modelled from the spec: a merge patch, "a partial-update document
expressing only the differing fields between two versions of an object":
the new spec and/or status, present only where they differ from the old. -/
structure MergePatch where
  spec : Option NetworkTopologySpec
  status : Option NetworkTopologyStatus
deriving DecidableEq, Repr

/-- Modelled from the spec: `util.CreateMergePatch` (source not in the
slice), the diff of the two objects. -/
def CreateMergePatch (old new : NetworkTopology) : MergePatch :=
  { spec := if old.spec = new.spec then none else some new.spec
    status := if old.status = new.status then none else some new.status }

/-- `patchNetworkTopology` (pkg/controller): compare the fetched object and
its mutated copy with `reflect.DeepEqual`; when they differ, compute a merge
patch and submit it (submission to the API server is modelled as
succeeding); when they are deeply equal, do nothing.  The result is the
submitted patch, `none` when no patch was sent. -/
def patchNetworkTopology (old new : NetworkTopology) : Option MergePatch :=
  if old = new then none
  else some (CreateMergePatch old new)

/-- Split a `"/"`-separated key into its parts (`strings.Split`). -/
def splitSlash (cs : List Char) : List (List Char) :=
  cs.foldr (fun c acc =>
    if c = '/' then [] :: acc
    else
      match acc with
      | h :: t => (c :: h) :: t
      | [] => [[c]]) [[]]

/-- `cache.SplitMetaNamespaceKey`: a bare name maps to the empty namespace,
`ns/name` splits in two, anything with more separators is an error. -/
def SplitMetaNamespaceKey (key : String) : Option (String × String) :=
  match (splitSlash key.data).map (fun cs => String.mk cs) with
  | [n] => some ("", n)
  | [ns, n] => some (ns, n)
  | _ => none

/-- The read-side environment a sync observes: the informer stores for
NetworkTopologies (by namespace and name) and ConfigMaps (by namespace and
name), plus the node lister's listing (assumed to succeed; `none` models a
not-found error from the respective `Get`). -/
structure Env where
  topologies : String → String → Option NetworkTopology
  nodes : List Node
  configmaps : String → String → Option ConfigMap

/-- Observable outcome of one `syncHandler` invocation: whether a non-nil
error was returned, whether the deferred closure re-enqueued the key with
`AddRateLimited` (it fires whenever the captured `err` variable is non-nil
when the function returns), the controller state afterwards, the mutated
copy (`none` on the early-return paths), and the submitted patch. -/
structure SyncResult where
  retErr : Bool
  requeued : Bool
  ctrl : NetworkTopologyController
  ntCopy : Option NetworkTopology
  patch : Option MergePatch
deriving Repr

/-- The recomputation block duplicated in both branches of `syncHandler`:
extract the `Manual` cost lists from the copy, rebuild the graphs via
`updateGraph`, replace `spec.weights` with the `Manual` pass-through entry
and a freshly computed `Dijkstra` entry, and stamp
`status.weightCalculationTime` with the current time. -/
def recomputeWeights (ctrl : NetworkTopologyController) (nodes : List Node)
    (cm : ConfigMap) (ntCopy : NetworkTopology) (now : MetaTime) :
    NetworkTopologyController × NetworkTopology :=
  let mc := manualCosts ntCopy.spec.weights
  let ctrl := updateGraph ctrl nodes cm
  (ctrl,
    { ntCopy with
        spec := { ntCopy.spec with
          weights := [
            { name := Manual, regionCostList := mc.1, zoneCostList := mc.2 },
            { name := Dijkstra
              regionCostList := getRegionWeights ctrl nodes
              zoneCostList := getZoneWeights ctrl nodes }] }
        status := { ntCopy.status with weightCalculationTime := now } })

/-- `syncHandler` (pkg/controller): resolve the key; fetch the
NetworkTopology (not-found logs and returns nil — but the deferred closure
still re-enqueues, since the captured `err` is the not-found error); deep
copy; list nodes; fetch the config map named in the spec (not-found behaves
the same way); set `status.nodeCount` from the live counter; recompute the
weight lists when `status.weightCalculationTime` is zero, or again when it
exceeds the creation timestamp by more than 48 hours; finally diff and
patch.  Failures of the node listing, of `updateGraph` (whose Go error is
always nil) and of the patch submission are not modelled. -/
def syncHandler (env : Env) (ctrl : NetworkTopologyController) (key : String)
    (now : MetaTime) : SyncResult :=
  match SplitMetaNamespaceKey key with
  | none =>
    -- invalid key: HandleError, return nil (the deferred closure is not yet
    -- registered at this point, so nothing is re-enqueued)
    { retErr := false, requeued := false, ctrl := ctrl, ntCopy := none, patch := none }
  | some (namespace', name') =>
    match env.topologies namespace' name' with
    | none =>
      -- not-found: return nil, yet the deferred closure observes the
      -- captured non-nil `err` and calls AddRateLimited
      { retErr := false, requeued := true, ctrl := ctrl, ntCopy := none, patch := none }
    | some nt =>
      let ntCopy := nt
      match env.configmaps namespace' ntCopy.spec.configmapName with
      | none =>
        { retErr := false, requeued := true, ctrl := ctrl, ntCopy := none, patch := none }
      | some cm =>
        let ntCopy := { ntCopy with status := { ntCopy.status with nodeCount := ctrl.nodeCount } }
        let step :=
          if ntCopy.status.weightCalculationTime.IsZero then
            recomputeWeights ctrl env.nodes cm ntCopy now
          else if hours48 < ntCopy.status.weightCalculationTime.Sub nt.creationTimestamp then
            recomputeWeights ctrl env.nodes cm ntCopy now
          else (ctrl, ntCopy)
        let patch := patchNetworkTopology nt step.2
        { retErr := false, requeued := false, ctrl := step.1, ntCopy := some step.2,
          patch := patch }

/-- `nodeAdded` (pkg/controller): increment the node count; when both the
region and the zone label are present, record the pair in `topologyMap`. -/
def nodeAdded (ctrl : NetworkTopologyController) (n : Node) : NetworkTopologyController :=
  let region := GetNodeRegion n
  let zone := GetNodeZone n
  let ctrl := { ctrl with nodeCount := ctrl.nodeCount + 1 }
  if region ≠ "" ∧ zone ≠ "" then
    { ctrl with topologyMap := insertKey ⟨region, zone⟩ ctrl.topologyMap }
  else ctrl

/-- `nodeDeleted` (pkg/controller): decrement the node count (nothing
else). -/
def nodeDeleted (ctrl : NetworkTopologyController) (_n : Node) : NetworkTopologyController :=
  { ctrl with nodeCount := ctrl.nodeCount - 1 }

/-- `nodeUpdated` (pkg/controller): a no-op when neither the region nor the
zone changed, otherwise a delete of the old representation followed by an
add of the new one. -/
def nodeUpdated (ctrl : NetworkTopologyController) (old new : Node) : NetworkTopologyController :=
  if GetNodeZone old = GetNodeZone new ∧ GetNodeRegion old = GetNodeRegion new then ctrl
  else nodeAdded (nodeDeleted ctrl old) new

/-- One observable event acting on the controller state: the three node
watch callbacks and a sync pass (which is the only place `updateGraph` and
hence the only recomputation runs). -/
inductive CtrlEvent where
  | nodeAdd (n : Node)
  | nodeUpdate (old new : Node)
  | nodeDelete (n : Node)
  | sync (env : Env) (key : String) (now : MetaTime)

/-- State transition of one event. -/
def applyEvent (ctrl : NetworkTopologyController) : CtrlEvent → NetworkTopologyController
  | CtrlEvent.nodeAdd n => nodeAdded ctrl n
  | CtrlEvent.nodeUpdate old new => nodeUpdated ctrl old new
  | CtrlEvent.nodeDelete n => nodeDeleted ctrl n
  | CtrlEvent.sync env key now => (syncHandler env ctrl key now).ctrl

/-- Run a sequence of events. -/
def runEvents (ctrl : NetworkTopologyController) (evs : List CtrlEvent) :
    NetworkTopologyController :=
  evs.foldl applyEvent ctrl

/-- Internal `config.CoschedulingArgs` (value-typed; the fields named by the
generated conversions in the v1beta1 conversion source). -/
structure ConfigCoschedulingArgs where
  permitWaitingTimeSeconds : Int
  deniedPGExpirationTimeSeconds : Int
deriving DecidableEq, Repr

/-- External `v1beta1.CoschedulingArgs` (pointer-optional fields, plus the
two cluster-connection fields that exist only on this side, per the
generated conversion's warnings). -/
structure V1beta1CoschedulingArgs where
  permitWaitingTimeSeconds : Option Int
  deniedPGExpirationTimeSeconds : Option Int
  kubeMaster : String
  kubeConfigPath : String
deriving DecidableEq, Repr

/-- `metav1.Convert_Pointer_int64_To_int64`: dereference, or zero when nil. -/
def Convert_Pointer_int64_To_int64 (p : Option Int) : Int := p.getD 0

/-- `metav1.Convert_int64_To_Pointer_int64`: always a present pointer. -/
def Convert_int64_To_Pointer_int64 (v : Int) : Option Int := some v

/-- `Convert_v1beta1_CoschedulingArgs_To_config_CoschedulingArgs`
(v1beta1 conversion source): convert the two pointer-optional int64 fields;
`KubeMaster` and `KubeConfigPath` have no peer and are not converted. -/
def Convert_v1beta1_CoschedulingArgs_To_config_CoschedulingArgs
    (inArgs : V1beta1CoschedulingArgs) (outArgs : ConfigCoschedulingArgs) :
    ConfigCoschedulingArgs :=
  { outArgs with
      permitWaitingTimeSeconds :=
        Convert_Pointer_int64_To_int64 inArgs.permitWaitingTimeSeconds
      deniedPGExpirationTimeSeconds :=
        Convert_Pointer_int64_To_int64 inArgs.deniedPGExpirationTimeSeconds }

/-- `Convert_config_CoschedulingArgs_To_v1beta1_CoschedulingArgs`
(v1beta1 conversion source): produce present pointers for the two int64
fields; the external-only fields of `out` are left as they were. -/
def Convert_config_CoschedulingArgs_To_v1beta1_CoschedulingArgs
    (inArgs : ConfigCoschedulingArgs) (outArgs : V1beta1CoschedulingArgs) :
    V1beta1CoschedulingArgs :=
  { outArgs with
      permitWaitingTimeSeconds :=
        Convert_int64_To_Pointer_int64 inArgs.permitWaitingTimeSeconds
      deniedPGExpirationTimeSeconds :=
        Convert_int64_To_Pointer_int64 inArgs.deniedPGExpirationTimeSeconds }

/-! ### Order facts about the modelled Go string comparison -/

theorem charListLt_irrefl (as : List Char) : charListLt as as = false := by
  induction as with
  | nil => rfl
  | cons a t ih => simp [charListLt, lt_irrefl, ih]

theorem charListLt_trans : ∀ (as bs cs : List Char),
    charListLt as bs = true → charListLt bs cs = true → charListLt as cs = true := by
  intro as
  induction as with
  | nil =>
    intro bs cs h1 h2
    cases cs with
    | nil =>
      cases bs with
      | nil => simp [charListLt] at h1
      | cons b bt => simp [charListLt] at h2
    | cons c ct => simp [charListLt]
  | cons a t ih =>
    intro bs cs h1 h2
    cases bs with
    | nil => simp [charListLt] at h1
    | cons b bt =>
      cases cs with
      | nil => simp [charListLt] at h2
      | cons c ct =>
        simp only [charListLt] at h1 h2 ⊢
        by_cases hab : a < b
        · by_cases hbc : b < c
          · simp [lt_trans hab hbc]
          · by_cases hcb : c < b
            · simp [hbc, hcb] at h2
            · have hbc' : b = c := le_antisymm (not_lt.mp hcb) (not_lt.mp hbc)
              subst hbc'
              simp [hab]
        · by_cases hba : b < a
          · simp [hab, hba] at h1
          · have hab' : a = b := le_antisymm (not_lt.mp hba) (not_lt.mp hab)
            subst hab'
            have h1' : charListLt t bt = true := by simpa [lt_irrefl] using h1
            by_cases hbc : a < c
            · simp [hbc]
            · by_cases hcb : c < a
              · simp [hbc, hcb] at h2
              · have h2' : charListLt bt ct = true := by simpa [hbc, hcb] using h2
                simp [hbc, hcb, ih bt ct h1' h2']

theorem charListLt_connex : ∀ (as bs : List Char), as ≠ bs →
    charListLt as bs = true ∨ charListLt bs as = true := by
  intro as
  induction as with
  | nil =>
    intro bs h
    cases bs with
    | nil => exact absurd rfl h
    | cons b bt => left; simp [charListLt]
  | cons a t ih =>
    intro bs h
    cases bs with
    | nil => right; simp [charListLt]
    | cons b bt =>
      rcases lt_trichotomy a b with hab | hab | hab
      · left; simp [charListLt, hab]
      · subst hab
        have ht : t ≠ bt := fun he => h (by rw [he])
        rcases ih bt ht with h1 | h1
        · left; simp [charListLt, lt_irrefl, h1]
        · right; simp [charListLt, lt_irrefl, h1]
      · right; simp [charListLt, hab]

theorem strDataInj {a b : String} (h : a.data = b.data) : a = b := by
  cases a
  cases b
  simp only at h
  rw [h]

theorem strLt_irrefl (s : String) : strLt s s = false :=
  charListLt_irrefl s.data

theorem strLt_trans {a b c : String} (h1 : strLt a b = true) (h2 : strLt b c = true) :
    strLt a c = true :=
  charListLt_trans a.data b.data c.data h1 h2

theorem strLt_ne {a b : String} (h : strLt a b = true) : a ≠ b := by
  intro he
  subst he
  rw [strLt_irrefl] at h
  cases h

theorem strLt_connex {a b : String} (h : a ≠ b) : strLt a b = true ∨ strLt b a = true :=
  charListLt_connex a.data b.data (fun he => h (strDataInj he))

/-! ### Small facts about the embedded data structures -/

theorem mem_insertKey {α : Type} [DecidableEq α] {a : α} (b : α) {l : List α}
    (h : a ∈ l) : a ∈ insertKey b l := by
  unfold insertKey
  split
  · exact h
  · exact List.mem_cons_of_mem _ h

theorem Graph.edgeWeight_AddEdge_self (g : Graph) (u v : String) (c : Int) :
    (g.AddEdge u v c).edgeWeight u v = some c := by
  simp [Graph.AddEdge, Graph.edgeWeight, List.find?]

/-! ### Claim theorems -/

/-- C8: converting an internal `CoschedulingArgs` to the external v1beta1
shape always produces present pointers for the two int64 fields, and
converting back (for any prior contents of the two `out` parameters) yields
the original internal value. -/
theorem coschedulingArgs_conversion_roundtrip (a : ConfigCoschedulingArgs)
    (ext0 : V1beta1CoschedulingArgs) (int0 : ConfigCoschedulingArgs) :
    (Convert_config_CoschedulingArgs_To_v1beta1_CoschedulingArgs a ext0).permitWaitingTimeSeconds.isSome = true ∧
    (Convert_config_CoschedulingArgs_To_v1beta1_CoschedulingArgs a ext0).deniedPGExpirationTimeSeconds.isSome = true ∧
    Convert_v1beta1_CoschedulingArgs_To_config_CoschedulingArgs
      (Convert_config_CoschedulingArgs_To_v1beta1_CoschedulingArgs a ext0) int0 = a := by
  cases a
  simp [Convert_config_CoschedulingArgs_To_v1beta1_CoschedulingArgs,
    Convert_v1beta1_CoschedulingArgs_To_config_CoschedulingArgs,
    Convert_int64_To_Pointer_int64, Convert_Pointer_int64_To_int64]

/-- C1 (evidence): with a well-formed key, a sync whose NetworkTopology is
not found — or whose NetworkTopology is found but whose named ConfigMap is
not — returns no error, yet the key IS re-enqueued with `AddRateLimited`:
the deferred closure in `syncHandler` tests the captured `err` variable,
which still holds the not-found error when the function returns nil. -/
theorem syncHandler_notFound_returns_nil_but_requeues :
    ((syncHandler ⟨fun _ _ => none, [], fun _ _ => none⟩
        initController "default/nt-a" 1).retErr = false ∧
     (syncHandler ⟨fun _ _ => none, [], fun _ _ => none⟩
        initController "default/nt-a" 1).requeued = true) ∧
    ((syncHandler ⟨fun _ _ => some ⟨0, ⟨[], "netperf-metrics"⟩, ⟨0, 0⟩⟩, [], fun _ _ => none⟩
        initController "default/nt-a" 1).retErr = false ∧
     (syncHandler ⟨fun _ _ => some ⟨0, ⟨[], "netperf-metrics"⟩, ⟨0, 0⟩⟩, [], fun _ _ => none⟩
        initController "default/nt-a" 1).requeued = true) := by
  exact ⟨⟨rfl, rfl⟩, ⟨rfl, rfl⟩⟩

/-- C10: the weight computation does not filter out the empty string: for a
node list containing a node with no region label, the computed Dijkstra
region cost list has an `OriginInfo` whose origin is `""`, and `""` also
appears as a destination in the other origin's cost entries. -/
theorem getRegionWeights_includes_empty_region :
    (∃ oi ∈ getRegionWeights initController
        [⟨"n1", [(labelTopologyRegion, "r1"), (labelTopologyZone, "z1")]⟩, ⟨"n2", []⟩],
      oi.origin = "") ∧
    (∃ oi ∈ getRegionWeights initController
        [⟨"n1", [(labelTopologyRegion, "r1"), (labelTopologyZone, "z1")]⟩, ⟨"n2", []⟩],
      oi.origin = "r1" ∧ ∃ ci ∈ oi.costs, ci.destination = "") := by
  decide

/-- C5: in the `updateGraph` loop body (`processPair`), for a pair of
distinct-named nodes, when the regions differ the region-graph edge
`(r1, r2)` ends up overwritten with the newly parsed cost exactly when the
currently computed region path cost is strictly smaller than that cost
(and is untouched otherwise); for equal regions but differing zones the
zone graph is governed by the same keep-the-larger policy. -/
theorem updateGraph_merge_keeps_larger (cm : ConfigMap) (ctrl : NetworkTopologyController)
    (n1 n2 : Node) (hname : n1.name ≠ n2.name) :
    (GetNodeRegion n1 ≠ GetNodeRegion n2 →
      (processPair cm ctrl n1 n2).regionGraph.edgeWeight (GetNodeRegion n1) (GetNodeRegion n2) =
        (if (ctrl.regionGraph.GetPath (GetNodeRegion n1) (GetNodeRegion n2)).1 < pairCost cm n1 n2
         then some (pairCost cm n1 n2)
         else ctrl.regionGraph.edgeWeight (GetNodeRegion n1) (GetNodeRegion n2))) ∧
    (GetNodeRegion n1 = GetNodeRegion n2 → GetNodeZone n1 ≠ GetNodeZone n2 →
      (processPair cm ctrl n1 n2).zoneGraph.edgeWeight (GetNodeZone n1) (GetNodeZone n2) =
        (if (ctrl.zoneGraph.GetPath (GetNodeZone n1) (GetNodeZone n2)).1 < pairCost cm n1 n2
         then some (pairCost cm n1 n2)
         else ctrl.zoneGraph.edgeWeight (GetNodeZone n1) (GetNodeZone n2))) := by
  constructor
  · intro hr
    unfold processPair
    rw [if_neg hname, if_pos hr]
    split
    case isTrue h => rw [if_pos h]; exact Graph.edgeWeight_AddEdge_self _ _ _ _
    case isFalse h => rw [if_neg h]
  · intro hr hz
    unfold processPair
    rw [if_neg hname, if_neg (by simpa using hr), if_pos hz]
    split
    case isTrue h => rw [if_pos h]; exact Graph.edgeWeight_AddEdge_self _ _ _ _
    case isFalse h => rw [if_neg h]

/-- Witness for C5: two nodes in regions `ra` and `rb` with a measured cost
of 7; the empty region graph's path cost 0 is smaller, so the edge is
overwritten. -/
theorem updateGraph_merge_keeps_larger_witness :
    (processPair ⟨"cm", [("a_b", "7")]⟩ initController
        ⟨"a", [(labelTopologyRegion, "ra")]⟩
        ⟨"b", [(labelTopologyRegion, "rb")]⟩).regionGraph.edgeWeight
      (GetNodeRegion ⟨"a", [(labelTopologyRegion, "ra")]⟩)
      (GetNodeRegion ⟨"b", [(labelTopologyRegion, "rb")]⟩) =
    (if (initController.regionGraph.GetPath
          (GetNodeRegion ⟨"a", [(labelTopologyRegion, "ra")]⟩)
          (GetNodeRegion ⟨"b", [(labelTopologyRegion, "rb")]⟩)).1 <
        pairCost ⟨"cm", [("a_b", "7")]⟩ ⟨"a", [(labelTopologyRegion, "ra")]⟩
          ⟨"b", [(labelTopologyRegion, "rb")]⟩
     then some (pairCost ⟨"cm", [("a_b", "7")]⟩ ⟨"a", [(labelTopologyRegion, "ra")]⟩
          ⟨"b", [(labelTopologyRegion, "rb")]⟩)
     else initController.regionGraph.edgeWeight
          (GetNodeRegion ⟨"a", [(labelTopologyRegion, "ra")]⟩)
          (GetNodeRegion ⟨"b", [(labelTopologyRegion, "rb")]⟩)) :=
  (updateGraph_merge_keeps_larger ⟨"cm", [("a_b", "7")]⟩ initController
    ⟨"a", [(labelTopologyRegion, "ra")]⟩ ⟨"b", [(labelTopologyRegion, "rb")]⟩
    (by decide)).1 (by decide)

/-- The copy with `status.nodeCount` replaced by the live counter. -/
def ntWithCount (nt : NetworkTopology) (c : Int) : NetworkTopology :=
  { nt with status := { nt.status with nodeCount := c } }

/-- Result record of a sync whose lookups succeeded. -/
def syncSuccess (nt : NetworkTopology) (step : NetworkTopologyController × NetworkTopology) :
    SyncResult :=
  { retErr := false, requeued := false, ctrl := step.1, ntCopy := some step.2,
    patch := patchNetworkTopology nt step.2 }

/-- A successful dual lookup routes `syncHandler` through the common tail:
node-count update, the two staleness branches, then diff and patch. -/
theorem syncHandler_found (env : Env) (ctrl : NetworkTopologyController)
    (key ns nm : String) (now : MetaTime) (nt : NetworkTopology) (cm : ConfigMap)
    (hkey : SplitMetaNamespaceKey key = some (ns, nm))
    (hnt : env.topologies ns nm = some nt)
    (hcm : env.configmaps ns nt.spec.configmapName = some cm) :
    syncHandler env ctrl key now =
      (if MetaTime.IsZero nt.status.weightCalculationTime then
        syncSuccess nt (recomputeWeights ctrl env.nodes cm (ntWithCount nt ctrl.nodeCount) now)
      else if hours48 < MetaTime.Sub nt.status.weightCalculationTime nt.creationTimestamp then
        syncSuccess nt (recomputeWeights ctrl env.nodes cm (ntWithCount nt ctrl.nodeCount) now)
      else syncSuccess nt (ctrl, ntWithCount nt ctrl.nodeCount)) := by
  unfold syncHandler
  simp only [hkey, hnt, hcm]
  by_cases h1 : MetaTime.IsZero nt.status.weightCalculationTime = true
  · simp only [if_pos h1]
    rfl
  · simp only [if_neg h1]
    by_cases h2 : hours48 < MetaTime.Sub nt.status.weightCalculationTime nt.creationTimestamp
    · simp only [if_pos h2]
      rfl
    · simp only [if_neg h2]
      rfl

theorem patchNetworkTopology_eq_none_iff (a b : NetworkTopology) :
    patchNetworkTopology a b = none ↔ a = b := by
  by_cases h : a = b <;> simp [patchNetworkTopology, h]

theorem patchNetworkTopology_isSome_iff (a b : NetworkTopology) :
    (patchNetworkTopology a b).isSome = true ↔ a ≠ b := by
  by_cases h : a = b <;> simp [patchNetworkTopology, h]

/-- Writing back an unchanged node count reproduces the same object. -/
theorem statusCount_eta (nt : NetworkTopology) (c : Int) (h : nt.status.nodeCount = c) :
    ntWithCount nt c = nt := by
  cases nt with
  | mk ct sp st =>
    cases st
    simp_all [ntWithCount]

/-- C6: after a sync with both lookups succeeding, no patch is submitted
precisely when the fetched object and its mutated copy are deeply equal,
and a merge patch is computed and submitted precisely when they differ; in
particular a sync that neither changes the node count nor recomputes
(calculation time non-zero and within the 48-hour bound) submits
nothing. -/
theorem patch_skipped_iff_deep_equal (env : Env) (ctrl : NetworkTopologyController)
    (key ns nm : String) (now : MetaTime) (nt : NetworkTopology) (cm : ConfigMap)
    (hkey : SplitMetaNamespaceKey key = some (ns, nm))
    (hnt : env.topologies ns nm = some nt)
    (hcm : env.configmaps ns nt.spec.configmapName = some cm) :
    ∃ nt', (syncHandler env ctrl key now).ntCopy = some nt' ∧
      ((syncHandler env ctrl key now).patch = none ↔ nt = nt') ∧
      ((syncHandler env ctrl key now).patch.isSome = true ↔ nt ≠ nt') ∧
      (nt.status.nodeCount = ctrl.nodeCount →
        nt.status.weightCalculationTime ≠ 0 →
        ¬ hours48 < MetaTime.Sub nt.status.weightCalculationTime nt.creationTimestamp →
        (syncHandler env ctrl key now).patch = none) := by
  rw [syncHandler_found env ctrl key ns nm now nt cm hkey hnt hcm]
  split
  case isTrue hb =>
    refine ⟨_, rfl, patchNetworkTopology_eq_none_iff _ _, patchNetworkTopology_isSome_iff _ _, ?_⟩
    intro _ hz _
    exact absurd (by simpa [MetaTime.IsZero] using hb) hz
  case isFalse hb =>
    split
    case isTrue hst =>
      refine ⟨_, rfl, patchNetworkTopology_eq_none_iff _ _, patchNetworkTopology_isSome_iff _ _, ?_⟩
      intro _ _ hst'
      exact absurd hst hst'
    case isFalse hst =>
      refine ⟨_, rfl, patchNetworkTopology_eq_none_iff _ _, patchNetworkTopology_isSome_iff _ _, ?_⟩
      intro hcount _ _
      show patchNetworkTopology nt (ctrl, ntWithCount nt ctrl.nodeCount).2 = none
      rw [(patchNetworkTopology_eq_none_iff _ _).mpr]
      exact (statusCount_eta nt ctrl.nodeCount hcount).symm

/-- A sync of an object whose calculation time is non-zero and within the
48-hour bound leaves the weight lists and the calculation time unchanged. -/
theorem syncHandler_no_recompute (env : Env) (ctrl : NetworkTopologyController)
    (key ns nm : String) (now : MetaTime) (nt : NetworkTopology) (cm : ConfigMap)
    (hkey : SplitMetaNamespaceKey key = some (ns, nm))
    (hnt : env.topologies ns nm = some nt)
    (hcm : env.configmaps ns nt.spec.configmapName = some cm)
    (hz : nt.status.weightCalculationTime ≠ 0)
    (hst : ¬ hours48 < MetaTime.Sub nt.status.weightCalculationTime nt.creationTimestamp) :
    ∃ nt₂, (syncHandler env ctrl key now).ntCopy = some nt₂ ∧
      nt₂.spec.weights = nt.spec.weights ∧
      nt₂.status.weightCalculationTime = nt.status.weightCalculationTime := by
  rw [syncHandler_found env ctrl key ns nm now nt cm hkey hnt hcm]
  have hb : ¬ (MetaTime.IsZero nt.status.weightCalculationTime = true) := by
    simp [MetaTime.IsZero, hz]
  rw [if_neg hb, if_neg hst]
  exact ⟨_, rfl, rfl, rfl⟩

/-- C2 (amended): a sync with both lookups succeeding recomputes the weight
lists exactly when `status.weightCalculationTime` is zero or exceeds the
creation timestamp by more than 48 hours (the code measures the staleness
interval between the recorded calculation time and the creation timestamp,
not from the current time); a recomputation stamps the calculation time
with the current (non-zero) time, otherwise the weight lists and the
calculation time are untouched; and any subsequent sync of the updated
object while it is within the staleness window leaves the weight lists
unchanged. -/
theorem syncHandler_staleness (env : Env) (ctrl : NetworkTopologyController)
    (key ns nm : String) (now : MetaTime) (nt : NetworkTopology) (cm : ConfigMap)
    (hkey : SplitMetaNamespaceKey key = some (ns, nm))
    (hnt : env.topologies ns nm = some nt)
    (hcm : env.configmaps ns nt.spec.configmapName = some cm)
    (hnow : now ≠ 0) :
    ∃ nt', (syncHandler env ctrl key now).ntCopy = some nt' ∧
      nt'.creationTimestamp = nt.creationTimestamp ∧
      nt'.spec.configmapName = nt.spec.configmapName ∧
      ((nt.status.weightCalculationTime = 0 ∨
          hours48 < MetaTime.Sub nt.status.weightCalculationTime nt.creationTimestamp) →
        nt'.status.weightCalculationTime = now ∧ nt'.status.weightCalculationTime ≠ 0 ∧
        nt'.spec.weights =
          [⟨Manual, (manualCosts nt.spec.weights).1, (manualCosts nt.spec.weights).2⟩,
           ⟨Dijkstra, getRegionWeights (updateGraph ctrl env.nodes cm) env.nodes,
            getZoneWeights (updateGraph ctrl env.nodes cm) env.nodes⟩]) ∧
      (¬ (nt.status.weightCalculationTime = 0 ∨
          hours48 < MetaTime.Sub nt.status.weightCalculationTime nt.creationTimestamp) →
        nt'.spec.weights = nt.spec.weights ∧
        nt'.status.weightCalculationTime = nt.status.weightCalculationTime) ∧
      (∀ (env₂ : Env) (ctrl₂ : NetworkTopologyController) (key₂ ns₂ nm₂ : String)
          (now₂ : MetaTime) (cm₂ : ConfigMap),
        SplitMetaNamespaceKey key₂ = some (ns₂, nm₂) →
        env₂.topologies ns₂ nm₂ = some nt' →
        env₂.configmaps ns₂ nt'.spec.configmapName = some cm₂ →
        nt'.status.weightCalculationTime ≠ 0 →
        ¬ hours48 < MetaTime.Sub nt'.status.weightCalculationTime nt'.creationTimestamp →
        ∃ nt₂, (syncHandler env₂ ctrl₂ key₂ now₂).ntCopy = some nt₂ ∧
          nt₂.spec.weights = nt'.spec.weights ∧
          nt₂.status.weightCalculationTime = nt'.status.weightCalculationTime) := by
  rw [syncHandler_found env ctrl key ns nm now nt cm hkey hnt hcm]
  split
  case isTrue hb =>
    refine ⟨_, rfl, rfl, rfl, fun _ => ⟨rfl, hnow, rfl⟩, fun hn => ?_, ?_⟩
    · exact absurd (Or.inl (by simpa [MetaTime.IsZero] using hb)) hn
    · intro env₂ ctrl₂ key₂ ns₂ nm₂ now₂ cm₂ hk hn hc hz hs
      exact syncHandler_no_recompute env₂ ctrl₂ key₂ ns₂ nm₂ now₂ _ cm₂ hk hn hc hz hs
  case isFalse hb =>
    split
    case isTrue hst =>
      refine ⟨_, rfl, rfl, rfl, fun _ => ⟨rfl, hnow, rfl⟩, fun hn => absurd (Or.inr hst) hn, ?_⟩
      intro env₂ ctrl₂ key₂ ns₂ nm₂ now₂ cm₂ hk hn hc hz hs
      exact syncHandler_no_recompute env₂ ctrl₂ key₂ ns₂ nm₂ now₂ _ cm₂ hk hn hc hz hs
    case isFalse hst =>
      refine ⟨_, rfl, rfl, rfl, fun h => ?_, fun _ => ⟨rfl, rfl⟩, ?_⟩
      · rcases h with h0 | h1
        · exact absurd (by simp [MetaTime.IsZero, h0] :
            MetaTime.IsZero nt.status.weightCalculationTime = true) hb
        · exact absurd h1 hst
      · intro env₂ ctrl₂ key₂ ns₂ nm₂ now₂ cm₂ hk hn hc hz hs
        exact syncHandler_no_recompute env₂ ctrl₂ key₂ ns₂ nm₂ now₂ _ cm₂ hk hn hc hz hs

/-- Witness for C6 at a concrete sync. -/
theorem patch_skipped_iff_deep_equal_witness :
    ∃ nt', (syncHandler ⟨fun _ _ => some ⟨0, ⟨[], "c"⟩, ⟨0, 5⟩⟩, [], fun _ _ => some ⟨"c", []⟩⟩
        initController "default/t" 7).ntCopy = some nt' ∧
      ((syncHandler ⟨fun _ _ => some ⟨0, ⟨[], "c"⟩, ⟨0, 5⟩⟩, [], fun _ _ => some ⟨"c", []⟩⟩
        initController "default/t" 7).patch = none ↔ (⟨0, ⟨[], "c"⟩, ⟨0, 5⟩⟩ : NetworkTopology) = nt') ∧
      ((syncHandler ⟨fun _ _ => some ⟨0, ⟨[], "c"⟩, ⟨0, 5⟩⟩, [], fun _ _ => some ⟨"c", []⟩⟩
        initController "default/t" 7).patch.isSome = true ↔ (⟨0, ⟨[], "c"⟩, ⟨0, 5⟩⟩ : NetworkTopology) ≠ nt') ∧
      ((⟨0, ⟨[], "c"⟩, ⟨0, 5⟩⟩ : NetworkTopology).status.nodeCount = initController.nodeCount →
        (⟨0, ⟨[], "c"⟩, ⟨0, 5⟩⟩ : NetworkTopology).status.weightCalculationTime ≠ 0 →
        ¬ hours48 < MetaTime.Sub (⟨0, ⟨[], "c"⟩, ⟨0, 5⟩⟩ : NetworkTopology).status.weightCalculationTime
            (⟨0, ⟨[], "c"⟩, ⟨0, 5⟩⟩ : NetworkTopology).creationTimestamp →
        (syncHandler ⟨fun _ _ => some ⟨0, ⟨[], "c"⟩, ⟨0, 5⟩⟩, [], fun _ _ => some ⟨"c", []⟩⟩
          initController "default/t" 7).patch = none) :=
  patch_skipped_iff_deep_equal
    ⟨fun _ _ => some ⟨0, ⟨[], "c"⟩, ⟨0, 5⟩⟩, [], fun _ _ => some ⟨"c", []⟩⟩
    initController "default/t" "default" "t" 7 ⟨0, ⟨[], "c"⟩, ⟨0, 5⟩⟩ ⟨"c", []⟩
    (by decide) rfl rfl

/-- Counterexample for C2 as stated: a NetworkTopology created at time 0
whose weight lists were last computed at time 1 (non-zero), synced at a
current time 49 hours later.  More than 48 hours have elapsed since the
creation timestamp, yet the sync performs no recomputation: the mutated
copy is unchanged (weight lists intact, calculation time still 1, not the
current time), because the code compares `weightCalculationTime` — not the
current time — against the creation timestamp. -/
theorem syncHandler_staleness_counterexample :
    hours48 < MetaTime.Sub 176400000000000 (0 : MetaTime) ∧
    (1 : MetaTime) ≠ 0 ∧
    (syncHandler ⟨fun _ _ => some ⟨0, ⟨[], "c"⟩, ⟨0, 1⟩⟩, [], fun _ _ => some ⟨"c", []⟩⟩
        initController "default/t" 176400000000000).ntCopy =
      some ⟨0, ⟨[], "c"⟩, ⟨0, 1⟩⟩ ∧
    (1 : MetaTime) ≠ 176400000000000 := by
  decide

/-- Witness for C2's amended theorem: the zero-calculation-time case
recomputes and stamps the current time. -/
theorem syncHandler_staleness_witness :
    ∃ nt', (syncHandler ⟨fun _ _ => some ⟨0, ⟨[], "c"⟩, ⟨0, 0⟩⟩, [], fun _ _ => some ⟨"c", []⟩⟩
        initController "default/t" 5).ntCopy = some nt' ∧
      nt'.status.weightCalculationTime = 5 := by
  obtain ⟨nt', h1, _, _, h4, _, _⟩ :=
    syncHandler_staleness
      ⟨fun _ _ => some ⟨0, ⟨[], "c"⟩, ⟨0, 0⟩⟩, [], fun _ _ => some ⟨"c", []⟩⟩
      initController "default/t" "default" "t" 5 ⟨0, ⟨[], "c"⟩, ⟨0, 0⟩⟩ ⟨"c", []⟩
      (by decide) rfl rfl (by decide)
  exact ⟨nt', h1, (h4 (Or.inl rfl)).1⟩

/-- The `Manual`-extraction fold leaves its accumulator untouched when no
entry is named `Manual`. -/
theorem manualCosts_foldl_no_manual (ws : WeightList) (acc : CostList × CostList)
    (h : ∀ w ∈ ws, w.name ≠ Manual) :
    ws.foldl (fun acc w =>
      if w.name = Manual then (w.regionCostList, w.zoneCostList) else acc) acc = acc := by
  induction ws generalizing acc with
  | nil => rfl
  | cons a t ih =>
    rw [List.foldl_cons, if_neg (h a (List.mem_cons_self a t))]
    exact ih acc (fun w hw => h w (List.mem_cons_of_mem a hw))

/-- With exactly one `Manual` entry, the extraction fold returns that
entry's two cost lists, whatever the accumulator. -/
theorem manualCosts_foldl_unique (ws : WeightList) (w : WeightInfo)
    (acc : CostList × CostList)
    (hf : ws.filter (fun x => x.name == Manual) = [w]) :
    ws.foldl (fun acc w =>
      if w.name = Manual then (w.regionCostList, w.zoneCostList) else acc) acc =
      (w.regionCostList, w.zoneCostList) := by
  induction ws generalizing acc with
  | nil => simp at hf
  | cons a t ih =>
    by_cases ha : a.name = Manual
    · have hcons : a :: t.filter (fun x => x.name == Manual) = [w] := by
        simpa [List.filter_cons, ha] using hf
      have haw : a = w := (List.cons.injEq _ _ _ _).mp hcons |>.1
      have htf : t.filter (fun x => x.name == Manual) = [] :=
        (List.cons.injEq _ _ _ _).mp hcons |>.2
      have hno : ∀ x ∈ t, x.name ≠ Manual := by
        intro x hx hxn
        have hmem : x ∈ t.filter (fun x => x.name == Manual) :=
          List.mem_filter.mpr ⟨hx, by simp [hxn]⟩
        rw [htf] at hmem
        simp at hmem
      rw [List.foldl_cons, if_pos ha, manualCosts_foldl_no_manual t _ hno, haw]
    · have htf : t.filter (fun x => x.name == Manual) = [w] := by
        simpa [List.filter_cons, ha] using hf
      rw [List.foldl_cons, if_neg ha]
      exact ih _ htf
 
/-- With exactly one `Manual` entry, `manualCosts` returns its lists. -/
theorem manualCosts_of_unique (ws : WeightList) (w : WeightInfo)
    (hf : ws.filter (fun x => x.name == Manual) = [w]) :
    manualCosts ws = (w.regionCostList, w.zoneCostList) :=
  manualCosts_foldl_unique ws w ([], []) hf

/-- C3: whenever a sync recomputes (calculation time zero or staleness
exceeded) and the fetched object's weights contain exactly one entry named
`Manual`, the resulting `spec.weights` is exactly two entries: that
`Manual` entry's region and zone cost lists passed through unchanged, and a
`Dijkstra` entry freshly computed from the rebuilt graphs; nothing else is
retained. -/
theorem syncHandler_recompute_two_entries (env : Env) (ctrl : NetworkTopologyController)
    (key ns nm : String) (now : MetaTime) (nt : NetworkTopology) (cm : ConfigMap)
    (w : WeightInfo)
    (hkey : SplitMetaNamespaceKey key = some (ns, nm))
    (hnt : env.topologies ns nm = some nt)
    (hcm : env.configmaps ns nt.spec.configmapName = some cm)
    (hrec : nt.status.weightCalculationTime = 0 ∨
        hours48 < MetaTime.Sub nt.status.weightCalculationTime nt.creationTimestamp)
    (hw : nt.spec.weights.filter (fun x => x.name == Manual) = [w]) :
    ∃ nt', (syncHandler env ctrl key now).ntCopy = some nt' ∧
      nt'.spec.weights =
        [⟨Manual, w.regionCostList, w.zoneCostList⟩,
         ⟨Dijkstra, getRegionWeights (updateGraph ctrl env.nodes cm) env.nodes,
          getZoneWeights (updateGraph ctrl env.nodes cm) env.nodes⟩] := by
  have hmc : manualCosts (ntWithCount nt ctrl.nodeCount).spec.weights =
      (w.regionCostList, w.zoneCostList) :=
    manualCosts_of_unique _ w hw
  rw [syncHandler_found env ctrl key ns nm now nt cm hkey hnt hcm]
  rcases hrec with h0 | hst
  · have hb : MetaTime.IsZero nt.status.weightCalculationTime = true := by
      simp [MetaTime.IsZero, h0]
    rw [if_pos hb]
    refine ⟨_, rfl, ?_⟩
    simp only [recomputeWeights, syncSuccess]
    rw [hmc]
  · by_cases hb : MetaTime.IsZero nt.status.weightCalculationTime = true
    · rw [if_pos hb]
      refine ⟨_, rfl, ?_⟩
      simp only [recomputeWeights, syncSuccess]
      rw [hmc]
    · rw [if_neg hb, if_pos hst]
      refine ⟨_, rfl, ?_⟩
      simp only [recomputeWeights, syncSuccess]
      rw [hmc]

/-- Witness for C3: one Manual entry, zero calculation time, empty node
list. -/
theorem syncHandler_recompute_two_entries_witness :
    ∃ nt', (syncHandler ⟨fun _ _ => some ⟨0, ⟨[⟨"Manual", [], []⟩], "c"⟩, ⟨0, 0⟩⟩, [],
          fun _ _ => some ⟨"c", []⟩⟩ initController "default/t" 3).ntCopy = some nt' ∧
      nt'.spec.weights =
        [⟨Manual, WeightInfo.regionCostList ⟨"Manual", [], []⟩,
          WeightInfo.zoneCostList ⟨"Manual", [], []⟩⟩,
         ⟨Dijkstra, getRegionWeights (updateGraph initController [] ⟨"c", []⟩) [],
          getZoneWeights (updateGraph initController [] ⟨"c", []⟩) []⟩] :=
  syncHandler_recompute_two_entries
    ⟨fun _ _ => some ⟨0, ⟨[⟨"Manual", [], []⟩], "c"⟩, ⟨0, 0⟩⟩, [], fun _ _ => some ⟨"c", []⟩⟩
    initController "default/t" "default" "t" 3 ⟨0, ⟨[⟨"Manual", [], []⟩], "c"⟩, ⟨0, 0⟩⟩
    ⟨"c", []⟩ ⟨"Manual", [], []⟩ (by decide) rfl rfl (Or.inl rfl) (by decide)

/-- Membership through the by-origin insertion step. -/
theorem mem_insertByOrigin {a x : OriginInfo} {l : List OriginInfo} :
    a ∈ insertByOrigin x l ↔ a = x ∨ a ∈ l := by
  induction l with
  | nil => simp [insertByOrigin]
  | cons y ys ih =>
    simp only [insertByOrigin]
    split
    · simp [List.mem_cons]
    · simp only [List.mem_cons, ih]
      tauto

/-- Sorting by origin neither adds nor removes records. -/
theorem mem_sortByOrigin {a : OriginInfo} {l : List OriginInfo} :
    a ∈ sortByOrigin l ↔ a ∈ l := by
  induction l with
  | nil => simp [sortByOrigin]
  | cons x xs ih =>
    rw [show sortByOrigin (x :: xs) = insertByOrigin x (sortByOrigin xs) from rfl,
      mem_insertByOrigin]
    simp [ih, List.mem_cons]

/-- Counterexample for C4 as stated: two nodes in regions `a` and `b` and a
manually-authored region cost list granting `a -> b` a bandwidth capacity
of 5; the Dijkstra entry emitted by `getRegionWeights` nevertheless carries
capacity 1024, not the binary-searched manual value. -/
theorem getRegionWeights_capacity_not_from_manual :
    ¬ (∀ (ctrl : NetworkTopologyController) (nodes : List Node) (manualRegionCosts : CostList),
        ∀ oi ∈ getRegionWeights ctrl nodes, ∀ ci ∈ oi.costs,
          ci.bandwidthCapacity =
            FindOriginBandwidthCapacity (FindOriginCosts manualRegionCosts oi.origin)
              ci.destination) := by
  intro h
  have hx := h initController
      [⟨"na", [(labelTopologyRegion, "a")]⟩, ⟨"nb", [(labelTopologyRegion, "b")]⟩]
      [⟨"a", [⟨"b", ⟨5, QuantityFormat.DecimalSI⟩, ⟨0, QuantityFormat.DecimalSI⟩, 1⟩]⟩]
      ⟨"a", [⟨"b", NewQuantity (1 * 1024) QuantityFormat.DecimalSI,
        NewQuantity (1 * 1024) QuantityFormat.DecimalSI, 0⟩]⟩
      (by decide)
      ⟨"b", NewQuantity (1 * 1024) QuantityFormat.DecimalSI,
        NewQuantity (1 * 1024) QuantityFormat.DecimalSI, 0⟩
      (by decide)
  exact absurd hx (by decide)

/-- C4 (amended): every per-destination `CostInfo` emitted by
`getRegionWeights` and by `getZoneWeights` carries the constant quantity
`1*1024` (DecimalSI) as both its bandwidth capacity and its bandwidth
allocation, independent of any manually-authored cost list. -/
theorem weights_bandwidth_capacity_constant (ctrl : NetworkTopologyController)
    (nodes : List Node) :
    (∀ oi ∈ getRegionWeights ctrl nodes, ∀ ci ∈ oi.costs,
       ci.bandwidthCapacity = NewQuantity (1 * 1024) QuantityFormat.DecimalSI ∧
       ci.bandwidthAllocated = NewQuantity (1 * 1024) QuantityFormat.DecimalSI) ∧
    (∀ oi ∈ getZoneWeights ctrl nodes, ∀ ci ∈ oi.costs,
       ci.bandwidthCapacity = NewQuantity (1 * 1024) QuantityFormat.DecimalSI ∧
       ci.bandwidthAllocated = NewQuantity (1 * 1024) QuantityFormat.DecimalSI) := by
  constructor
  · intro oi hoi ci hci
    unfold getRegionWeights at hoi
    rw [mem_sortByOrigin] at hoi
    obtain ⟨r1, _, rfl⟩ := List.mem_map.mp hoi
    obtain ⟨r2, _, hsome⟩ := List.mem_filterMap.mp hci
    by_cases h : r1 ≠ r2
    · rw [if_pos h] at hsome
      obtain rfl := Option.some.inj hsome
      exact ⟨rfl, rfl⟩
    · rw [if_neg h] at hsome
      cases hsome
  · intro oi hoi ci hci
    unfold getZoneWeights at hoi
    rw [mem_sortByOrigin] at hoi
    obtain ⟨z1, _, rfl⟩ := List.mem_map.mp hoi
    obtain ⟨z2, _, hsome⟩ := List.mem_filterMap.mp hci
    by_cases h : z1 ≠ z2
    · rw [if_pos h] at hsome
      by_cases hm : (⟨z1, z2⟩ : ZoneKey) ∈ ctrl.ZoneMap
      · rw [if_pos hm] at hsome
        obtain rfl := Option.some.inj hsome
        exact ⟨rfl, rfl⟩
      · rw [if_neg hm] at hsome
        cases hsome
    · rw [if_neg h] at hsome
      cases hsome

/-- Witness for C4's amended theorem at a concrete two-region cluster. -/
theorem weights_bandwidth_capacity_constant_witness :
    CostInfo.bandwidthCapacity ⟨"b", NewQuantity (1 * 1024) QuantityFormat.DecimalSI,
        NewQuantity (1 * 1024) QuantityFormat.DecimalSI, 0⟩ =
      NewQuantity (1 * 1024) QuantityFormat.DecimalSI ∧
    CostInfo.bandwidthAllocated ⟨"b", NewQuantity (1 * 1024) QuantityFormat.DecimalSI,
        NewQuantity (1 * 1024) QuantityFormat.DecimalSI, 0⟩ =
      NewQuantity (1 * 1024) QuantityFormat.DecimalSI :=
  (weights_bandwidth_capacity_constant initController
      [⟨"na", [(labelTopologyRegion, "a")]⟩, ⟨"nb", [(labelTopologyRegion, "b")]⟩]).1
    ⟨"a", [⟨"b", NewQuantity (1 * 1024) QuantityFormat.DecimalSI,
      NewQuantity (1 * 1024) QuantityFormat.DecimalSI, 0⟩]⟩ (by decide)
    ⟨"b", NewQuantity (1 * 1024) QuantityFormat.DecimalSI,
      NewQuantity (1 * 1024) QuantityFormat.DecimalSI, 0⟩ (by decide)

/-- Both membership sets of the second state contain those of the first. -/
def preservesMaps (s s' : NetworkTopologyController) : Prop :=
  (∀ k, k ∈ s.topologyMap → k ∈ s'.topologyMap) ∧
  (∀ k, k ∈ s.ZoneMap → k ∈ s'.ZoneMap)

/-- Reflexivity of map preservation. -/
theorem preservesMaps_refl (s : NetworkTopologyController) : preservesMaps s s :=
  ⟨fun _ hk => hk, fun _ hk => hk⟩

/-- Transitivity of map preservation. -/
theorem preservesMaps_trans {s t u : NetworkTopologyController}
    (h1 : preservesMaps s t) (h2 : preservesMaps t u) : preservesMaps s u :=
  ⟨fun k hk => h2.1 k (h1.1 k hk), fun k hk => h2.2 k (h1.2 k hk)⟩

/-- The `updateGraph` loop body never removes a recorded pair. -/
theorem processPair_preserves (cm : ConfigMap) (s : NetworkTopologyController) (n1 n2 : Node) :
    preservesMaps s (processPair cm s n1 n2) := by
  unfold processPair preservesMaps
  dsimp only
  split
  · exact ⟨fun k hk => hk, fun k hk => hk⟩
  · split
    · split
      · exact ⟨fun k hk => hk, fun k hk => hk⟩
      · exact ⟨fun k hk => hk, fun k hk => hk⟩
    · split
      · split
        · exact ⟨fun k hk => hk, fun k hk => mem_insertKey _ hk⟩
        · exact ⟨fun k hk => hk, fun k hk => mem_insertKey _ hk⟩
      · exact ⟨fun k hk => hk, fun k hk => hk⟩

/-- A fold of steps that each preserve the maps preserves the maps. -/
theorem foldl_preserves {α : Type} (f : NetworkTopologyController → α → NetworkTopologyController)
    (hf : ∀ s a, preservesMaps s (f s a)) :
    ∀ (l : List α) (s : NetworkTopologyController), preservesMaps s (l.foldl f s) := by
  intro l
  induction l with
  | nil => intro s; exact preservesMaps_refl s
  | cons a t ih => intro s; exact preservesMaps_trans (hf s a) (ih (f s a))

/-- A graph rebuild resets only the three graphs: both membership sets
survive it. -/
theorem updateGraph_preserves (s : NetworkTopologyController) (nodes : List Node)
    (cm : ConfigMap) : preservesMaps s (updateGraph s nodes cm) := by
  unfold updateGraph
  exact preservesMaps_trans
    (⟨fun _ hk => hk, fun _ hk => hk⟩ : preservesMaps s
      { s with regionGraph := Graph.new, zoneGraph := Graph.new, nodeGraph := Graph.new })
    (foldl_preserves _
      (fun s' n1 => foldl_preserves (fun t n2 => processPair cm t n1 n2)
        (fun t n2 => processPair_preserves cm t n1 n2) nodes s')
      nodes _)

/-- A sync pass (on any environment and key) never removes a recorded
pair. -/
theorem syncHandler_preserves (env : Env) (ctrl : NetworkTopologyController)
    (key : String) (now : MetaTime) :
    preservesMaps ctrl (syncHandler env ctrl key now).ctrl := by
  unfold syncHandler
  split
  · exact preservesMaps_refl _
  · split
    · exact preservesMaps_refl _
    · dsimp only
      split
      · exact preservesMaps_refl _
      · dsimp only
        split
        · exact updateGraph_preserves _ _ _
        · split
          · exact updateGraph_preserves _ _ _
          · exact preservesMaps_refl _

/-- `nodeAdded` only inserts into `topologyMap`. -/
theorem nodeAdded_preserves (s : NetworkTopologyController) (n : Node) :
    preservesMaps s (nodeAdded s n) := by
  unfold nodeAdded preservesMaps
  dsimp only
  split
  · exact ⟨fun k hk => mem_insertKey _ hk, fun k hk => hk⟩
  · exact ⟨fun k hk => hk, fun k hk => hk⟩

/-- `nodeDeleted` only decrements the node count. -/
theorem nodeDeleted_preserves (s : NetworkTopologyController) (n : Node) :
    preservesMaps s (nodeDeleted s n) :=
  ⟨fun _ hk => hk, fun _ hk => hk⟩

/-- `nodeUpdated` is a delete (count only) followed by an add. -/
theorem nodeUpdated_preserves (s : NetworkTopologyController) (old new : Node) :
    preservesMaps s (nodeUpdated s old new) := by
  unfold nodeUpdated
  split
  · exact preservesMaps_refl _
  · exact preservesMaps_trans (nodeDeleted_preserves s old) (nodeAdded_preserves _ new)

/-- Every observable event preserves the two membership sets. -/
theorem applyEvent_preserves (s : NetworkTopologyController) (e : CtrlEvent) :
    preservesMaps s (applyEvent s e) := by
  cases e with
  | nodeAdd n => exact nodeAdded_preserves s n
  | nodeUpdate old new => exact nodeUpdated_preserves s old new
  | nodeDelete n => exact nodeDeleted_preserves s n
  | sync env key now => exact syncHandler_preserves env s key now

/-- C9: `topologyMap` and `ZoneMap` grow monotonically over the life of the
process: along any sequence of node watch events and sync passes, a
`{region, zone}` pair or `{zone, zone}` pair once recorded remains recorded
— in particular even after every node of that region or zone has been
deleted. -/
theorem topology_and_zone_maps_monotone (ctrl : NetworkTopologyController)
    (evs : List CtrlEvent) :
    (∀ k, k ∈ ctrl.topologyMap → k ∈ (runEvents ctrl evs).topologyMap) ∧
    (∀ k, k ∈ ctrl.ZoneMap → k ∈ (runEvents ctrl evs).ZoneMap) := by
  unfold runEvents
  exact foldl_preserves applyEvent applyEvent_preserves evs ctrl

/-- Witness for C9: recorded pairs survive node deletions and a sync. -/
theorem topology_and_zone_maps_monotone_witness :
    ((⟨"r", "z"⟩ : TopologyKey) ∈
      (runEvents ⟨2, Graph.new, Graph.new, Graph.new, [⟨"r", "z"⟩], [⟨"za", "zb"⟩]⟩
        [CtrlEvent.nodeDelete ⟨"n1", []⟩,
         CtrlEvent.sync ⟨fun _ _ => none, [], fun _ _ => none⟩ "default/t" 1,
         CtrlEvent.nodeDelete ⟨"n2", []⟩]).topologyMap) ∧
    ((⟨"za", "zb"⟩ : ZoneKey) ∈
      (runEvents ⟨2, Graph.new, Graph.new, Graph.new, [⟨"r", "z"⟩], [⟨"za", "zb"⟩]⟩
        [CtrlEvent.nodeDelete ⟨"n1", []⟩,
         CtrlEvent.sync ⟨fun _ _ => none, [], fun _ _ => none⟩ "default/t" 1,
         CtrlEvent.nodeDelete ⟨"n2", []⟩]).ZoneMap) :=
  ⟨(topology_and_zone_maps_monotone
      ⟨2, Graph.new, Graph.new, Graph.new, [⟨"r", "z"⟩], [⟨"za", "zb"⟩]⟩
      [CtrlEvent.nodeDelete ⟨"n1", []⟩,
       CtrlEvent.sync ⟨fun _ _ => none, [], fun _ _ => none⟩ "default/t" 1,
       CtrlEvent.nodeDelete ⟨"n2", []⟩]).1 ⟨"r", "z"⟩ (by decide),
   (topology_and_zone_maps_monotone
      ⟨2, Graph.new, Graph.new, Graph.new, [⟨"r", "z"⟩], [⟨"za", "zb"⟩]⟩
      [CtrlEvent.nodeDelete ⟨"n1", []⟩,
       CtrlEvent.sync ⟨fun _ _ => none, [], fun _ _ => none⟩ "default/t" 1,
       CtrlEvent.nodeDelete ⟨"n2", []⟩]).2 ⟨"za", "zb"⟩ (by decide)⟩

/-- In a list sorted strictly by destination, an earlier index has a
smaller destination. -/
theorem sorted_dest_lt (l : List CostInfo)
    (hs : l.Pairwise (fun a b => strLt a.destination b.destination = true))
    {i j : Nat} (hij : i < j) (hj : j < l.length) :
    strLt (l.getD i dummyCostInfo).destination (l.getD j dummyCostInfo).destination = true := by
  have hi : i < l.length := Nat.lt_trans hij hj
  rw [List.getD_eq_getElem l dummyCostInfo hi, List.getD_eq_getElem l dummyCostInfo hj]
  have hp := List.pairwise_iff_get.mp hs ⟨i, hi⟩ ⟨j, hj⟩ hij
  simpa [List.get_eq_getElem] using hp

/-- Correctness of the binary-search loop of
`FindOriginBandwidthCapacity` over the window `[low, high]`: under the
usual bracketing invariants (everything left of the window is below the
searched destination, everything right of it above, and enough fuel for
the window), the loop returns the matching entry's bandwidth capacity when
one exists and the zero quantity otherwise. -/
theorem findOBCLoop_spec (l : List CostInfo) (d : String)
    (hs : l.Pairwise (fun a b => strLt a.destination b.destination = true)) :
    ∀ (fuel : Nat) (low high : Int),
      0 ≤ low → high < (l.length : Int) →
      (high + 1 - low).toNat < fuel →
      (∀ i : Nat, i < l.length → (i : Int) < low →
        strLt (l.getD i dummyCostInfo).destination d = true) →
      (∀ i : Nat, i < l.length → high < (i : Int) →
        strLt d (l.getD i dummyCostInfo).destination = true) →
      (∀ i : Nat, i < l.length → (l.getD i dummyCostInfo).destination = d →
        findOBCLoop l d fuel low high = (l.getD i dummyCostInfo).bandwidthCapacity) ∧
      ((∀ i : Nat, i < l.length → (l.getD i dummyCostInfo).destination ≠ d) →
        findOBCLoop l d fuel low high = zeroQuantity) := by
  intro fuel
  induction fuel with
  | zero =>
    intro low high _ _ hf _ _
    exact absurd hf (Nat.not_lt_zero _)
  | succ fuel ih =>
    intro low high h0 hh hf hbelow habove
    by_cases hlh : low ≤ high
    case neg =>
      constructor
      · intro i hi hid
        exfalso
        rcases lt_or_le (i : Int) low with hlt | hge
        · exact strLt_ne (hbelow i hi hlt) hid
        · have hgi : high < (i : Int) := by omega
          exact strLt_ne (habove i hi hgi) hid.symm
      · intro _
        simp only [findOBCLoop, if_neg hlh]
    case pos =>
      have hmlow : low ≤ (low + high) / 2 := by omega
      have hmhigh : (low + high) / 2 ≤ high := by omega
      have hm0 : 0 ≤ (low + high) / 2 := le_trans h0 hmlow
      have hmlen : ((low + high) / 2).toNat < l.length := by omega
      have hunf : findOBCLoop l d (fuel + 1) low high =
          (if (l.getD ((low + high) / 2).toNat dummyCostInfo).destination = d then
            (l.getD ((low + high) / 2).toNat dummyCostInfo).bandwidthCapacity
          else if strLt (l.getD ((low + high) / 2).toNat dummyCostInfo).destination d then
            findOBCLoop l d fuel ((low + high) / 2 + 1) high
          else findOBCLoop l d fuel low ((low + high) / 2 - 1)) := by
        simp only [findOBCLoop, if_pos hlh]
      by_cases heq : (l.getD ((low + high) / 2).toNat dummyCostInfo).destination = d
      · constructor
        · intro i hi hid
          have him : i = ((low + high) / 2).toNat := by
            by_contra hne
            rcases Nat.lt_or_ge i (((low + high) / 2).toNat) with hlti | hgei
            · have hs1 := sorted_dest_lt l hs hlti hmlen
              rw [hid, heq] at hs1
              rw [strLt_irrefl] at hs1
              cases hs1
            · have hgti : ((low + high) / 2).toNat < i := by omega
              have hs1 := sorted_dest_lt l hs hgti hi
              rw [hid, heq] at hs1
              rw [strLt_irrefl] at hs1
              cases hs1
          rw [hunf, if_pos heq, him]
        · intro hnone
          exact absurd heq (hnone _ hmlen)
      · by_cases hlt : strLt (l.getD ((low + high) / 2).toNat dummyCostInfo).destination d = true
        · have hbelow' : ∀ i : Nat, i < l.length → (i : Int) < (low + high) / 2 + 1 →
              strLt (l.getD i dummyCostInfo).destination d = true := by
            intro i hi hil
            rcases Nat.lt_or_ge i (((low + high) / 2).toNat) with hlti | hgei
            · exact strLt_trans (sorted_dest_lt l hs hlti hmlen) hlt
            · have hieq : i = ((low + high) / 2).toNat := by omega
              rw [hieq]
              exact hlt
          have hrec := ih ((low + high) / 2 + 1) high (by omega) hh (by omega) hbelow' habove
          rw [hunf, if_neg heq, if_pos hlt]
          exact hrec
        · have hgt : strLt d (l.getD ((low + high) / 2).toNat dummyCostInfo).destination = true := by
            rcases strLt_connex
                (show d ≠ (l.getD ((low + high) / 2).toNat dummyCostInfo).destination from
                  fun hx => heq hx.symm) with h | h
            · exact h
            · exact absurd h hlt
          have habove' : ∀ i : Nat, i < l.length → (low + high) / 2 - 1 < (i : Int) →
              strLt d (l.getD i dummyCostInfo).destination = true := by
            intro i hi hgi
            rcases Nat.lt_or_ge (((low + high) / 2).toNat) i with hlti | hgei
            · exact strLt_trans hgt (sorted_dest_lt l hs hlti hi)
            · have hieq : i = ((low + high) / 2).toNat := by omega
              rw [hieq]
              exact hgt
          have hrec := ih low ((low + high) / 2 - 1) h0 (by omega) (by omega) hbelow habove'
          rw [hunf, if_neg heq, if_neg hlt]
          exact hrec

/-- C7: on a cost list sorted in strictly increasing destination order,
`FindOriginBandwidthCapacity` returns the bandwidth capacity of the entry
whose destination equals the searched string whenever such an entry
exists, and the zero quantity when no entry matches. -/
theorem FindOriginBandwidthCapacity_spec (l : List CostInfo) (d : String)
    (hs : l.Pairwise (fun a b => strLt a.destination b.destination = true)) :
    (∀ ci ∈ l, ci.destination = d →
      FindOriginBandwidthCapacity l d = ci.bandwidthCapacity) ∧
    ((∀ ci ∈ l, ci.destination ≠ d) →
      FindOriginBandwidthCapacity l d = zeroQuantity) := by
  have main := findOBCLoop_spec l d hs (l.length + 1) 0 ((l.length : Int) - 1)
    le_rfl (by omega) (by omega)
    (fun i _ hlt => absurd hlt (by omega))
    (fun i hi hgt => absurd hgt (by omega))
  constructor
  · intro ci hci hcid
    obtain ⟨i, hilen, rfl⟩ := List.mem_iff_getElem.mp hci
    have hgd : l.getD i dummyCostInfo = l[i] :=
      List.getD_eq_getElem l dummyCostInfo hilen
    have hres := main.1 i hilen (by rw [hgd]; exact hcid)
    show findOBCLoop l d (l.length + 1) 0 ((l.length : Int) - 1) = _
    rw [hres, hgd]
  · intro hnone
    refine main.2 (fun i hi => ?_)
    have hgd : l.getD i dummyCostInfo = l[i] :=
      List.getD_eq_getElem l dummyCostInfo hi
    rw [hgd]
    exact hnone _ (List.getElem_mem hi)

/-- Witness for C7: the spec's own example list `[{B,5},{D,2},{M,9}]`. -/
theorem FindOriginBandwidthCapacity_spec_witness :
    FindOriginBandwidthCapacity
      [⟨"B", ⟨5, QuantityFormat.DecimalSI⟩, zeroQuantity, 0⟩,
       ⟨"D", ⟨2, QuantityFormat.DecimalSI⟩, zeroQuantity, 0⟩,
       ⟨"M", ⟨9, QuantityFormat.DecimalSI⟩, zeroQuantity, 0⟩] "D" =
      (⟨2, QuantityFormat.DecimalSI⟩ : Quantity) ∧
    FindOriginBandwidthCapacity
      [⟨"B", ⟨5, QuantityFormat.DecimalSI⟩, zeroQuantity, 0⟩,
       ⟨"D", ⟨2, QuantityFormat.DecimalSI⟩, zeroQuantity, 0⟩,
       ⟨"M", ⟨9, QuantityFormat.DecimalSI⟩, zeroQuantity, 0⟩] "Z" = zeroQuantity :=
  ⟨(FindOriginBandwidthCapacity_spec
      [⟨"B", ⟨5, QuantityFormat.DecimalSI⟩, zeroQuantity, 0⟩,
       ⟨"D", ⟨2, QuantityFormat.DecimalSI⟩, zeroQuantity, 0⟩,
       ⟨"M", ⟨9, QuantityFormat.DecimalSI⟩, zeroQuantity, 0⟩] "D" (by decide)).1
      ⟨"D", ⟨2, QuantityFormat.DecimalSI⟩, zeroQuantity, 0⟩ (by decide) rfl,
   (FindOriginBandwidthCapacity_spec
      [⟨"B", ⟨5, QuantityFormat.DecimalSI⟩, zeroQuantity, 0⟩,
       ⟨"D", ⟨2, QuantityFormat.DecimalSI⟩, zeroQuantity, 0⟩,
       ⟨"M", ⟨9, QuantityFormat.DecimalSI⟩, zeroQuantity, 0⟩] "Z" (by decide)).2 (by decide)⟩
